import Mathlib

/-!
Shallow embedding of `streamlit_app.py` (Inboxify): a batch email-validation
pipeline.  Pure string manipulation is translated directly.  The three
external effectful libraries — `email_validator.validate_email`,
`dns.resolver.resolve` and `smtplib` — are modelled as oracles describing the
observable response of one call, so every pipeline function is a
deterministic function of the address and those oracles.  An exception that
escapes a function is modelled with `Except.error`.
-/

/-- Result of one call to `email_validator.validate_email(email)` (line 17 of
the source): the call either returns normally, raises `EmailNotValidError`
(the only exception caught at line 18), or raises some other exception,
which `validate_email_address` does not catch. -/
inductive SyntaxResult where
  | ok : SyntaxResult
  | emailNotValid : String → SyntaxResult
  | otherExc : String → SyntaxResult
  deriving DecidableEq

/-- One MX record as the code reads it: `r.preference` and `str(r.exchange)`. -/
structure MXRecord where
  preference : Nat
  exchange : String
  deriving DecidableEq

/-- Result of one call to `dns.resolver.resolve(domain, "MX")` (line 34):
an answer (list of records), `NXDOMAIN`, `Timeout`, or any other exception. -/
inductive DnsResult where
  | records : List MXRecord → DnsResult
  | nxdomain : DnsResult
  | timeout : DnsResult
  | error : String → DnsResult
  deriving DecidableEq

/-- Observable outcome of the SMTP handshake of lines 56-60: either every
step up to and including `quit` completed and `rcpt` returned a code, or the
connection failed (`SMTPConnectError`), or some other exception occurred
during the exchange. -/
inductive SmtpResult where
  | code : Nat → SmtpResult
  | connectError : SmtpResult
  | otherExc : String → SmtpResult
  deriving DecidableEq

/-- Externally visible events of the DNS retry loop: one `query` per call to
`dns.resolver.resolve` (line 34) and one `sleep` per `time.sleep(1)`
(line 46). -/
inductive DnsEvent where
  | query : DnsEvent
  | sleep : Nat → DnsEvent
  deriving DecidableEq

deriving instance DecidableEq for Except

/-- Python `s.strip()`: remove leading and trailing whitespace (line 109). -/
def pyStrip (s : String) : String :=
  String.mk (((s.data.dropWhile Char.isWhitespace).reverse.dropWhile
    Char.isWhitespace).reverse)

/-- Python `s.rstrip(".")` (line 40): remove every trailing dot. -/
def pyRstripDots (s : String) : String :=
  String.mk ((s.data.reverse.dropWhile (fun c => c == '.')).reverse)

/-- Does the first list start the second? -/
def listStartsWith : List Char → List Char → Bool
  | [], _ => true
  | _ :: _, [] => false
  | a :: as, b :: bs => a == b && listStartsWith as bs

/-- Python substring test `needle in haystack` (line 114). -/
def containsSeq (needle : List Char) : List Char → Bool
  | [] => needle.isEmpty
  | c :: rest => listStartsWith needle (c :: rest) || containsSeq needle rest

/-- Helper for Python `s.split(sep)[-1]`: scan left to right for
non-overlapping occurrences of `sep`; `some t` is the suffix after the last
occurrence found, `none` if there is none.  `fuel` only forces termination;
for a nonempty `sep` it never runs out when `fuel ≥ s.length`. -/
def pySLAux (sep : List Char) : Nat → List Char → Option (List Char)
  | 0, _ => none
  | _ + 1, [] => none
  | fuel + 1, c :: rest =>
    if listStartsWith sep (c :: rest) then
      match pySLAux sep fuel (List.drop sep.length (c :: rest)) with
      | some t => some t
      | none => some (List.drop sep.length (c :: rest))
    else
      pySLAux sep fuel rest

/-- Python `s.split(sep)[-1]` for a nonempty separator (lines 21 and 114):
the whole string when `sep` does not occur in `s`, else the suffix after the
last occurrence of `sep`. -/
def pySplitLast (sep s : String) : String :=
  match pySLAux sep.data s.data.length s.data with
  | some t => String.mk t
  | none => s

/-- Specification-side form of `s.split(c)[-1]` for a single-character
separator: `some t` when `c` occurs in `s` and `t` is the suffix after its
last occurrence, `none` when `c` does not occur.  Proved equal to `pySLAux`
below. -/
def afterLastChar (c : Char) : List Char → Option (List Char)
  | [] => none
  | a :: rest =>
    match afterLastChar c rest with
    | some t => some t
    | none => if a = c then some rest else none

/-- Stable insertion: place `x` before the first element of strictly larger
preference, after all elements of smaller or equal preference. -/
def insertByPreference (x : MXRecord) : List MXRecord → List MXRecord
  | [] => [x]
  | y :: ys =>
    if x.preference ≤ y.preference then x :: y :: ys
    else y :: insertByPreference x ys

/-- Stable ascending sort by `preference`, modelling Python's stable
`mx_records.sort(key=lambda r: r.preference)` (line 39). -/
def sortByPreference : List MXRecord → List MXRecord
  | [] => []
  | x :: xs => insertByPreference x (sortByPreference xs)

/-- `mx_records[0]` after the sort of line 39; `none` exactly when the record
list is empty, which the code has already excluded with the
`if not mx_records` guard of line 35. -/
def firstByPreference (rs : List MXRecord) : Option MXRecord :=
  (sortByPreference rs).head?

/-- Specification-side selector: the first record of minimal preference in
the resolver-returned order.  Proved equal to `firstByPreference` below. -/
def firstMin : List MXRecord → Option MXRecord
  | [] => none
  | a :: as =>
    match firstMin as with
    | none => some a
    | some m => if a.preference ≤ m.preference then some a else some m

/-- The `while retries < max_retries` loop of lines 32-50, unrolled on the
number of remaining allowed attempts (`rem = max_retries - retries`);
`attempt` counts the calls already made and indexes the resolver oracle.
Returns the `(status, message)` pair together with the trace of queries and
sleeps the loop performs. -/
def dnsLoopAux (dns : Nat → DnsResult) (attempt : Nat) :
    Nat → (String × String) × List DnsEvent
  | 0 => (("Invalid", "DNS query failed after multiple retries."), [])
  | rem + 1 =>
    match dns attempt with
    | DnsResult.records rs =>
      match firstByPreference rs with
      | none => (("Invalid", "No MX records found for domain."), [DnsEvent.query])
      | some m =>
        (("Valid", "MX records found, prioritized at " ++ pyRstripDots m.exchange),
          [DnsEvent.query])
    | DnsResult.nxdomain =>
      (("Invalid", "Domain does not exist."), [DnsEvent.query])
    | DnsResult.timeout =>
      let r := dnsLoopAux dns (attempt + 1) rem
      (r.1, DnsEvent.query :: DnsEvent.sleep 1 :: r.2)
    | DnsResult.error e =>
      (("Invalid", "DNS error: " ++ e), [DnsEvent.query])

/-- Steps 4 of `validate_email_address`: the whole retry loop, entered with
`retries = 0`. -/
def dnsLoop (dns : Nat → DnsResult) (maxRetries : Nat) :
    (String × String) × List DnsEvent :=
  dnsLoopAux dns 0 maxRetries

/-- `validate_email_address` (lines 11-50).  `synO` and `dnsO` are the
oracles for the syntax validator and the DNS resolver (the latter keyed by
domain and attempt number).  `Except.error` models an exception escaping the
function, which is possible only for an unexpected exception of the syntax
validator: every exception of the DNS block is caught by lines 42-48.
Alongside the `(email, status, message)` triple, the DNS event trace of the
call is returned. -/
def validate_email_address (email : String) (blacklist disposable : List String)
    (synO : String → SyntaxResult) (dnsO : String → Nat → DnsResult)
    (maxRetries : Nat) :
    Except String ((String × String × String) × List DnsEvent) :=
  match synO email with
  | SyntaxResult.otherExc e => Except.error e
  | SyntaxResult.emailNotValid e =>
    Except.ok ((email, "Invalid", "Invalid syntax: " ++ e), [])
  | SyntaxResult.ok =>
    let domain := pySplitLast "@" email
    if blacklist.contains domain then
      Except.ok ((email, "Blacklisted", "Domain is blacklisted."), [])
    else if disposable.contains domain then
      Except.ok ((email, "Disposable", "Domain is a disposable email provider."), [])
    else
      let r := dnsLoop (dnsO domain) maxRetries
      Except.ok ((email, r.1.1, r.1.2), r.2)

/-- `smtp_check` (lines 53-72) as a function of the observable outcome of
its single SMTP handshake; the code performs exactly one probe and no retry,
so the function consumes exactly one `SmtpResult`. -/
def smtp_check (probe : SmtpResult) : String × String :=
  match probe with
  | SmtpResult.code c =>
    if c = 250 then ("Valid", "Email exists and is reachable.")
    else if c = 550 then ("Invalid", "Mailbox does not exist.")
    else if c = 451 then ("Greylisted", "Temporary error, try again later.")
    else ("Invalid", "SMTP response code " ++ toString c ++ ".")
  | SmtpResult.connectError => ("Invalid", "SMTP connection failed.")
  | SmtpResult.otherExc e => ("Invalid", "SMTP error: " ++ e)

/-- The module-level disposable-provider set of lines 92-95. -/
def disposable_providers : List String :=
  ["tempmail.com", "mailinator.com", "guerrillamail.com", "10minutemail.com",
   "throwawaymail.com", "temp-mail.org", "discard.email", "emailondeck.com",
   "maildrop.cc"]

/-- Body of the `as_completed` loop for one completed future (lines 111-121):
re-probe over SMTP only when the status is `"Valid"` and a nonempty host
could be extracted from the message; otherwise append the triple as-is.
`smtpO` is the oracle giving the outcome of `smtp_check(email, mx_host)`. -/
def processOne (smtpO : String → String → SmtpResult) :
    String × String × String → String × String × String
  | (email, status, message) =>
    if status = "Valid" then
      let mx_host :=
        if containsSeq "MX records found".data message.data then
          pySplitLast ", prioritized at " message
        else ""
      if mx_host = "" then (email, status, message)
      else
        let r := smtp_check (smtpO email mx_host)
        (email, r.1, r.2)
    else (email, status, message)

/-- The addresses actually submitted to the pool (line 109): each input line
stripped, skipping lines that are blank after stripping. -/
def dispatched (emails : List String) : List String :=
  (emails.filter (fun e => pyStrip e != "")).map pyStrip

/-- The `for idx, future in enumerate(as_completed(futures))` loop of lines
110-123 over the already-ordered list of future results: collect the
processed triples and the successive progress values `(idx + 1) / N` where
`N = len(emails)` (line 123).  A `future.result()` that re-raises an
exception aborts the whole loop — there is no `try` around it. -/
def runBatchAux (N : Nat) (smtpO : String → String → SmtpResult) :
    List (Except String (String × String × String)) → Nat →
    Except String (List (String × String × String) × List ℚ)
  | [], _ => Except.ok ([], [])
  | f :: rest, idx =>
    match f with
    | Except.error e => Except.error e
    | Except.ok v =>
      match runBatchAux N smtpO rest (idx + 1) with
      | Except.error e => Except.error e
      | Except.ok (rs, ps) =>
        Except.ok (processOne smtpO v :: rs, (((idx + 1 : Nat) : ℚ) / (N : ℚ)) :: ps)

/-- The batch orchestrator of lines 99-123.  `order` is the completion order
of the dispatched futures, which `as_completed` leaves unconstrained: the
theorems below quantify over every permutation of `dispatched emails`.
Because each invocation is a deterministic function of its address and the
oracles, a future's result is `validate_email_address` of its address. -/
def run_batch (emails : List String) (blacklist : List String)
    (synO : String → SyntaxResult) (dnsO : String → Nat → DnsResult)
    (smtpO : String → String → SmtpResult) (order : List String) :
    Except String (List (String × String × String) × List ℚ) :=
  runBatchAux emails.length smtpO
    (order.map fun e =>
      Except.map Prod.fst (validate_email_address e blacklist disposable_providers synO dnsO 3))
    0

/-- A string with a nonempty left part stays nonempty under append. -/
theorem str_append_ne_empty (a b : String) (h : a ≠ "") : a ++ b ≠ "" := by
  intro hc
  apply h
  have hd : a.data ++ b.data = [] := by
    have h2 := congrArg String.data hc
    simpa [String.data_append] using h2
  have ha : a.data = [] := (List.append_eq_nil.mp hd).1
  cases a
  simp_all [String.ext_iff]

/-- Every exit of the DNS retry loop carries status `Valid` or `Invalid` and a
nonempty message. -/
theorem dnsLoopAux_status (dns : Nat → DnsResult) :
    ∀ (rem attempt : Nat),
      ((dnsLoopAux dns attempt rem).1.1 = "Valid"
        ∨ (dnsLoopAux dns attempt rem).1.1 = "Invalid")
      ∧ (dnsLoopAux dns attempt rem).1.2 ≠ "" := by
  intro rem
  induction rem with
  | zero =>
    intro attempt
    refine ⟨Or.inr rfl, ?_⟩
    show ("DNS query failed after multiple retries." : String) ≠ ""
    decide
  | succ n ih =>
    intro attempt
    cases h : dns attempt with
    | records rs =>
      cases hm : firstByPreference rs with
      | none => simp [dnsLoopAux, h, hm]
      | some m =>
        simp only [dnsLoopAux, h, hm]
        constructor
        · simp
        · exact str_append_ne_empty _ _ (by decide)
    | nxdomain => simp [dnsLoopAux, h]
    | timeout =>
      simp only [dnsLoopAux, h]
      exact ih (attempt + 1)
    | error e =>
      simp only [dnsLoopAux, h]
      constructor
      · simp
      · exact str_append_ne_empty _ _ (by decide)

/-- `smtp_check` always yields status `Valid`, `Invalid` or `Greylisted` and a
nonempty message. -/
theorem smtp_check_status (r : SmtpResult) :
    ((smtp_check r).1 = "Valid" ∨ (smtp_check r).1 = "Invalid"
      ∨ (smtp_check r).1 = "Greylisted")
    ∧ (smtp_check r).2 ≠ "" := by
  cases r with
  | code c =>
    by_cases h1 : c = 250
    · subst h1; exact ⟨Or.inl rfl, by decide⟩
    · by_cases h2 : c = 550
      · subst h2; exact ⟨Or.inr (Or.inl rfl), by decide⟩
      · by_cases h3 : c = 451
        · subst h3; exact ⟨Or.inr (Or.inr rfl), by decide⟩
        · simp only [smtp_check, if_neg h1, if_neg h2, if_neg h3]
          exact ⟨by simp,
            str_append_ne_empty _ _ (str_append_ne_empty _ _ (by decide))⟩
  | connectError => exact ⟨Or.inr (Or.inl rfl), by decide⟩
  | otherExc e => exact ⟨Or.inr (Or.inl rfl), str_append_ne_empty _ _ (by decide)⟩

/-- When the syntax validator does not raise an unexpected exception,
`validate_email_address` returns normally, echoes the input address, and
yields one of the four classifier/DNS statuses with a nonempty message. -/
theorem validate_spec (email : String) (bl dp : List String)
    (synO : String → SyntaxResult) (dnsO : String → Nat → DnsResult)
    (h : ∀ m, synO email ≠ SyntaxResult.otherExc m) :
    ∃ s msg tr,
      validate_email_address email bl dp synO dnsO 3 = Except.ok ((email, s, msg), tr)
      ∧ (s = "Valid" ∨ s = "Invalid" ∨ s = "Blacklisted" ∨ s = "Disposable")
      ∧ msg ≠ "" := by
  cases hs : synO email with
  | otherExc m => exact absurd hs (h m)
  | emailNotValid m =>
    exact ⟨"Invalid", "Invalid syntax: " ++ m, [],
      by simp [validate_email_address, hs], Or.inr (Or.inl rfl),
      str_append_ne_empty _ _ (by decide)⟩
  | ok =>
    by_cases hbl : pySplitLast "@" email ∈ bl
    · exact ⟨"Blacklisted", "Domain is blacklisted.", [],
        by simp [validate_email_address, hs, hbl], Or.inr (Or.inr (Or.inl rfl)),
        by decide⟩
    · by_cases hdp : pySplitLast "@" email ∈ dp
      · exact ⟨"Disposable", "Domain is a disposable email provider.", [],
          by simp [validate_email_address, hs, hbl, hdp],
          Or.inr (Or.inr (Or.inr rfl)), by decide⟩
      · obtain ⟨hst, hmsg⟩ := dnsLoopAux_status (dnsO (pySplitLast "@" email)) 3 0
        refine ⟨(dnsLoop (dnsO (pySplitLast "@" email)) 3).1.1,
          (dnsLoop (dnsO (pySplitLast "@" email)) 3).1.2,
          (dnsLoop (dnsO (pySplitLast "@" email)) 3).2,
          by simp [validate_email_address, hs, hbl, hdp], ?_, hmsg⟩
        rcases hst with h1 | h1
        · exact Or.inl h1
        · exact Or.inr (Or.inl h1)

/-- The `as_completed` loop body keeps the address, keeps or refines the
status, and keeps the message nonempty. -/
theorem processOne_spec (smtpO : String → String → SmtpResult)
    (email s msg : String) (hmsg : msg ≠ "") :
    (processOne smtpO (email, s, msg)).1 = email
    ∧ ((processOne smtpO (email, s, msg)).2.1 = s
        ∨ (processOne smtpO (email, s, msg)).2.1 = "Valid"
        ∨ (processOne smtpO (email, s, msg)).2.1 = "Invalid"
        ∨ (processOne smtpO (email, s, msg)).2.1 = "Greylisted")
    ∧ (processOne smtpO (email, s, msg)).2.2 ≠ "" := by
  by_cases hv : s = "Valid"
  · subst hv
    simp only [processOne, if_pos rfl]
    by_cases hmx :
        (if containsSeq "MX records found".data msg.data then
          pySplitLast ", prioritized at " msg
        else "") = ""
    · simp only [if_pos hmx]
      exact ⟨by simp, by simp, hmsg⟩
    · simp only [if_neg hmx]
      obtain ⟨hst, hm⟩ := smtp_check_status
        (smtpO email
          (if containsSeq "MX records found".data msg.data then
            pySplitLast ", prioritized at " msg
          else ""))
      exact ⟨by simp, Or.inr hst, hm⟩
  · simp only [processOne, if_neg hv]
    exact ⟨by simp, by simp [hv], hmsg⟩

/-- Every dispatched address is non-blank. -/
theorem dispatched_mem_ne (emails : List String) :
    ∀ x ∈ dispatched emails, x ≠ "" := by
  intro x hx
  simp only [dispatched, List.mem_map, List.mem_filter] at hx
  obtain ⟨e, ⟨_, hne⟩, rfl⟩ := hx
  simpa using hne

/-- No more futures than input lines. -/
theorem dispatched_length_le (emails : List String) :
    (dispatched emails).length ≤ emails.length := by
  simp only [dispatched, List.length_map]
  exact List.length_filter_le _ _

/-- Shape of the progress list produced by one more completed future. -/
theorem progress_cons (n idx N : Nat) :
    (List.range (n + 1)).map (fun i => (((idx + i + 1 : Nat) : ℚ) / (N : ℚ)))
      = (((idx + 1 : Nat) : ℚ) / (N : ℚ)) ::
        ((List.range n).map fun i => (((idx + 1 + i + 1 : Nat) : ℚ) / (N : ℚ))) := by
  rw [List.range_succ_eq_map, List.map_cons, List.map_map]
  refine congrArg₂ _ (by norm_num) ?_
  refine List.map_congr_left ?_
  intro i _
  have he : idx + (i + 1) + 1 = idx + 1 + i + 1 := by omega
  simp [Function.comp, he]

/-- Main orchestrator invariant, by induction over the completion order:
with no unexpected syntax-validator exception among the completed futures,
the loop returns one processed triple per future, in completion order, and
the progress values `(idx + 1) / N` for `idx = 0, 1, ...`. -/
theorem runBatchAux_spec (N : Nat) (smtpO : String → String → SmtpResult)
    (bl : List String) (synO : String → SyntaxResult) (dnsO : String → Nat → DnsResult) :
    ∀ (order : List String) (idx : Nat),
      (∀ e ∈ order, ∀ m, synO e ≠ SyntaxResult.otherExc m) →
      ∃ results,
        runBatchAux N smtpO
            (order.map fun e =>
              Except.map Prod.fst
                (validate_email_address e bl disposable_providers synO dnsO 3))
            idx
          = Except.ok (results,
              (List.range order.length).map fun i => (((idx + i + 1 : Nat) : ℚ) / (N : ℚ)))
        ∧ results.map (fun r => r.1) = order
        ∧ ∀ r ∈ results,
            (r.2.1 = "Valid" ∨ r.2.1 = "Invalid" ∨ r.2.1 = "Blacklisted"
              ∨ r.2.1 = "Disposable" ∨ r.2.1 = "Greylisted")
            ∧ r.2.2 ≠ "" := by
  intro order
  induction order with
  | nil =>
    intro idx _
    exact ⟨[], by simp [runBatchAux], rfl, by simp⟩
  | cons e rest ih =>
    intro idx h
    obtain ⟨s, msg, tr, hval, hst, hmsg⟩ :=
      validate_spec e bl disposable_providers synO dnsO (h e (by simp))
    obtain ⟨results, hrun, hmap, hall⟩ :=
      ih (idx + 1) (fun x hx m => h x (by simp [hx]) m)
    obtain ⟨hfst, hst2, hmsg2⟩ := processOne_spec smtpO e s msg hmsg
    have hval2 :
        Except.map Prod.fst (validate_email_address e bl disposable_providers synO dnsO 3)
          = Except.ok (e, s, msg) := by
      rw [hval]; rfl
    refine ⟨processOne smtpO (e, s, msg) :: results, ?_, ?_, ?_⟩
    · rw [List.map_cons]
      simp only [runBatchAux]
      rw [hval2, hrun, List.length_cons, progress_cons]
    · simp [hfst, hmap]
    · intro r hr
      rcases List.mem_cons.mp hr with hr | hr
      · subst hr
        refine ⟨?_, hmsg2⟩
        rcases hst2 with h2 | h2 | h2 | h2
        · rw [h2]
          rcases hst with h3 | h3 | h3 | h3
          · exact Or.inl h3
          · exact Or.inr (Or.inl h3)
          · exact Or.inr (Or.inr (Or.inl h3))
          · exact Or.inr (Or.inr (Or.inr (Or.inl h3)))
        · exact Or.inl h2
        · exact Or.inr (Or.inl h2)
        · exact Or.inr (Or.inr (Or.inr (Or.inr h2)))
      · exact hall r hr

/-- Head of a stable insertion: the inserted element wins only against a head
of larger-or-equal preference. -/
theorem head_insertByPreference (x : MXRecord) (l : List MXRecord) :
    (insertByPreference x l).head? = some (
      match l.head? with
      | none => x
      | some y => if x.preference ≤ y.preference then x else y) := by
  cases l with
  | nil => rfl
  | cons y ys =>
    by_cases h : x.preference ≤ y.preference
    · simp [insertByPreference, h]
    · simp [insertByPreference, h]

/-- The head of the stable sort is the first record of minimal preference. -/
theorem firstByPreference_eq_firstMin :
    ∀ l : List MXRecord, firstByPreference l = firstMin l := by
  intro l
  induction l with
  | nil => rfl
  | cons a as ih =>
    simp only [firstByPreference, sortByPreference] at *
    rw [head_insertByPreference, ih]
    cases hm : firstMin as with
    | none => simp [firstMin, hm]
    | some m =>
      by_cases h : a.preference ≤ m.preference <;> simp [firstMin, hm, h]

/-- `firstMin` misses exactly on the empty list. -/
theorem firstMin_eq_none (l : List MXRecord) : firstMin l = none ↔ l = [] := by
  cases l with
  | nil => simp [firstMin]
  | cons a as =>
    simp only [firstMin]
    cases firstMin as with
    | none => simp
    | some m => by_cases h : a.preference ≤ m.preference <;> simp [h]

/-- `firstMin` picks a member of minimal preference that is the first such
member in list order. -/
theorem firstMin_spec :
    ∀ (l : List MXRecord) (m : MXRecord), firstMin l = some m →
      m ∈ l ∧ (∀ r ∈ l, m.preference ≤ r.preference)
      ∧ ∃ pre post, l = pre ++ m :: post ∧ ∀ r ∈ pre, m.preference < r.preference := by
  intro l
  induction l with
  | nil => intro m h; cases h
  | cons a as ih =>
    intro m h
    simp only [firstMin] at h
    cases hm : firstMin as with
    | none =>
      rw [hm] at h
      simp only at h
      obtain rfl : a = m := Option.some.inj h
      have hasnil : as = [] := (firstMin_eq_none as).mp hm
      subst hasnil
      exact ⟨by simp, by simp, [], [], rfl, by simp⟩
    | some m1 =>
      rw [hm] at h
      simp only at h
      obtain ⟨hmem, hmin, pre, post, hdecomp, hpre⟩ := ih m1 hm
      by_cases hp : a.preference ≤ m1.preference
      · rw [if_pos hp] at h
        obtain rfl : a = m := Option.some.inj h
        refine ⟨by simp, ?_, [], as, rfl, by simp⟩
        intro r hr
        rcases List.mem_cons.mp hr with rfl | hr
        · exact le_refl _
        · exact le_trans hp (hmin r hr)
      · rw [if_neg hp] at h
        obtain rfl : m1 = m := Option.some.inj h
        have hlt := lt_of_not_le hp
        refine ⟨List.mem_cons_of_mem a hmem, ?_, a :: pre, post, by rw [hdecomp]; rfl, ?_⟩
        · intro r hr
          rcases List.mem_cons.mp hr with rfl | hr
          · exact le_of_lt hlt
          · exact hmin r hr
        · intro r hr
          rcases List.mem_cons.mp hr with rfl | hr
          · exact hlt
          · exact hpre r hr

/-- The record the code picks at line 40 is the first one of minimal
preference in resolver-returned order. -/
theorem firstByPreference_spec (l : List MXRecord) (m : MXRecord)
    (h : firstByPreference l = some m) :
    m ∈ l ∧ (∀ r ∈ l, m.preference ≤ r.preference)
    ∧ ∃ pre post, l = pre ++ m :: post ∧ ∀ r ∈ pre, m.preference < r.preference :=
  firstMin_spec l m (by rw [← firstByPreference_eq_firstMin]; exact h)

/-- A nonempty record set always produces a pick. -/
theorem firstByPreference_isSome (l : List MXRecord) (h : l ≠ []) :
    ∃ m, firstByPreference l = some m := by
  rw [firstByPreference_eq_firstMin]
  cases hm : firstMin l with
  | none => exact absurd ((firstMin_eq_none l).mp hm) h
  | some m => exact ⟨m, rfl⟩

/-- Every list starts with itself. -/
theorem listStartsWith_refl : ∀ l : List Char, listStartsWith l l = true := by
  intro l
  induction l with
  | nil => rfl
  | cons a as ih => simp [listStartsWith, ih]

/-- A string contains any of its suffixes. -/
theorem containsSeq_suffix :
    ∀ (pre needle : List Char), containsSeq needle (pre ++ needle) = true := by
  intro pre
  induction pre with
  | nil =>
    intro needle
    cases needle with
    | nil => rfl
    | cons a as => simp [containsSeq, listStartsWith_refl]
  | cons p ps ih =>
    intro needle
    simp [containsSeq, ih]

/-- `afterLastChar` misses exactly when the character does not occur. -/
theorem afterLastChar_eq_none (c : Char) :
    ∀ s, afterLastChar c s = none ↔ c ∉ s := by
  intro s
  induction s with
  | nil => simp [afterLastChar]
  | cons a rest ih =>
    simp only [afterLastChar]
    cases h : afterLastChar c rest with
    | some t =>
      have hmem : c ∈ rest := by
        by_contra hc
        rw [ih.mpr hc] at h
        simp at h
      simp [hmem]
    | none =>
      by_cases hac : a = c
      · simp [hac]
      · simp [hac, List.mem_cons, Ne.symm hac, ih.mp h]

/-- `afterLastChar` returns the suffix after the last occurrence. -/
theorem afterLastChar_spec (c : Char) :
    ∀ (s t : List Char), afterLastChar c s = some t →
      ∃ l, s = l ++ c :: t ∧ c ∉ t := by
  intro s
  induction s with
  | nil => intro t h; cases h
  | cons a rest ih =>
    intro t h
    simp only [afterLastChar] at h
    cases hr : afterLastChar c rest with
    | some u =>
      rw [hr] at h
      simp only at h
      have hut : u = t := Option.some.inj h
      obtain ⟨l, hl, hnt⟩ := ih u hr
      refine ⟨a :: l, ?_, ?_⟩
      · rw [← hut, hl]; rfl
      · rw [← hut]; exact hnt
    | none =>
      rw [hr] at h
      by_cases hac : a = c
      · simp only [if_pos hac] at h
        have hrt : rest = t := Option.some.inj h
        refine ⟨[], ?_, ?_⟩
        · rw [hac, ← hrt]; rfl
        · rw [← hrt]; exact (afterLastChar_eq_none c rest).mp hr
      · simp [hac] at h

/-- With enough fuel, the single-character scan computes `afterLastChar`. -/
theorem pySLAux_single (c : Char) :
    ∀ (fuel : Nat) (s : List Char), s.length ≤ fuel →
      pySLAux [c] fuel s = afterLastChar c s := by
  intro fuel
  induction fuel with
  | zero =>
    intro s hs
    have hnil : s = [] := List.eq_nil_of_length_eq_zero (Nat.le_zero.mp hs)
    subst hnil
    rfl
  | succ n ih =>
    intro s hs
    cases s with
    | nil => rfl
    | cons a rest =>
      have hlen : rest.length ≤ n := by simpa using hs
      by_cases hac : c = a
      · subst hac
        have hcond : listStartsWith [c] (c :: rest) = true := by
          simp [listStartsWith]
        have hdrop : List.drop ([c] : List Char).length (c :: rest) = rest := by simp
        simp only [pySLAux]
        rw [if_pos hcond, hdrop, ih rest hlen]
        cases hr : afterLastChar c rest with
        | some t => simp [afterLastChar, hr]
        | none => simp [afterLastChar, hr]
      · have hcond : ¬ listStartsWith [c] (a :: rest) = true := by
          simp [listStartsWith, hac]
        simp only [pySLAux]
        rw [if_neg hcond, ih rest hlen]
        cases hr : afterLastChar c rest with
        | some t => simp [afterLastChar, hr]
        | none => simp [afterLastChar, hr, Ne.symm hac]

/-- A resolver that always times out makes the loop run through all its
remaining attempts: one query and one 1-second sleep per attempt, ending
with the retry-exhaustion outcome. -/
theorem dnsLoopAux_timeout (dns : Nat → DnsResult)
    (h : ∀ n, dns n = DnsResult.timeout) :
    ∀ rem attempt,
      dnsLoopAux dns attempt rem
        = (("Invalid", "DNS query failed after multiple retries."),
            List.flatten (List.replicate rem [DnsEvent.query, DnsEvent.sleep 1])) := by
  intro rem
  induction rem with
  | zero => intro attempt; rfl
  | succ n ih =>
    intro attempt
    simp only [dnsLoopAux, h attempt]
    rw [ih (attempt + 1)]
    simp [List.replicate_succ]

/-- An NXDOMAIN answer is terminal after a single query. -/
theorem dnsLoopAux_nxdomain (dns : Nat → DnsResult) (attempt rem : Nat)
    (h : dns attempt = DnsResult.nxdomain) :
    dnsLoopAux dns attempt (rem + 1)
      = (("Invalid", "Domain does not exist."), [DnsEvent.query]) := by
  simp [dnsLoopAux, h]

/-- Any other resolver error is terminal after a single query. -/
theorem dnsLoopAux_error (dns : Nat → DnsResult) (attempt rem : Nat) (msg : String)
    (h : dns attempt = DnsResult.error msg) :
    dnsLoopAux dns attempt (rem + 1)
      = (("Invalid", "DNS error: " ++ msg), [DnsEvent.query]) := by
  simp [dnsLoopAux, h]

/-- A successful answer with an empty record set is terminal Invalid. -/
theorem dnsLoopAux_records_none (dns : Nat → DnsResult) (attempt rem : Nat)
    (rs : List MXRecord)
    (h : dns attempt = DnsResult.records rs)
    (hm : firstByPreference rs = none) :
    dnsLoopAux dns attempt (rem + 1)
      = (("Invalid", "No MX records found for domain."), [DnsEvent.query]) := by
  simp [dnsLoopAux, h, hm]

/-- A successful answer with a pick is provisional Valid naming the chosen
host with its trailing dots stripped. -/
theorem dnsLoopAux_records_some (dns : Nat → DnsResult) (attempt rem : Nat)
    (rs : List MXRecord) (m : MXRecord)
    (h : dns attempt = DnsResult.records rs)
    (hm : firstByPreference rs = some m) :
    dnsLoopAux dns attempt (rem + 1)
      = (("Valid", "MX records found, prioritized at " ++ pyRstripDots m.exchange),
          [DnsEvent.query]) := by
  simp [dnsLoopAux, h, hm]

/-- With the classifier passed, `validate_email_address` reports exactly the
outcome and trace of the DNS retry loop. -/
theorem validate_dns_branch (email : String) (bl dp : List String)
    (synO : String → SyntaxResult) (dnsO : String → Nat → DnsResult)
    (hok : synO email = SyntaxResult.ok)
    (hbl : pySplitLast "@" email ∉ bl)
    (hdp : pySplitLast "@" email ∉ dp) :
    validate_email_address email bl dp synO dnsO 3
      = Except.ok ((email, (dnsLoop (dnsO (pySplitLast "@" email)) 3).1.1,
          (dnsLoop (dnsO (pySplitLast "@" email)) 3).1.2),
          (dnsLoop (dnsO (pySplitLast "@" email)) 3).2) := by
  simp [validate_email_address, hok, hbl, hdp]

/-- Last element of a mapped range. -/
theorem range_map_getLast (f : Nat → ℚ) (n : Nat) (h : n ≠ 0) :
    ((List.range n).map f).getLast? = some (f (n - 1)) := by
  cases n with
  | zero => exact absurd rfl h
  | succ m =>
    rw [List.range_succ, List.map_append]
    simp

/-- The progress values `(i + 1) / N` are non-decreasing in completion
order. -/
theorem progress_chain (n N : Nat) :
    List.Chain' (· ≤ ·)
      ((List.range n).map fun i => (((i + 1 : Nat) : ℚ) / (N : ℚ))) := by
  apply List.Pairwise.chain'
  refine List.Pairwise.map _ ?_ (List.pairwise_lt_range n)
  intro a b hab
  rcases Nat.eq_zero_or_pos N with hN | hN
  · simp [hN]
  · have hN2 : (0 : ℚ) < N := by exact_mod_cast hN
    gcongr

/-- C1: every address that is non-empty after trimming yields exactly one
Disposition in the batch result — the addresses of the result triples are
precisely the completion order, a permutation of the dispatched addresses,
so there are no drops and no duplicates — each with status among Valid,
Invalid, Blacklisted, Disposable, Greylisted and a nonempty message;
addresses that are blank after trimming are excluded before dispatch and no
blank address appears in the result.  Hypotheses: the completion order is
some permutation of the dispatched addresses (as_completed is unordered)
and the syntax validator honours its contract of raising only
EmailNotValidError. -/
theorem c1_batch_unique_dispositions (emails bl : List String)
    (synO : String → SyntaxResult) (dnsO : String → Nat → DnsResult)
    (smtpO : String → String → SmtpResult) (order : List String)
    (horder : order.Perm (dispatched emails))
    (hsyn : ∀ e ∈ order, ∀ m, synO e ≠ SyntaxResult.otherExc m) :
    ∃ results prog,
      run_batch emails bl synO dnsO smtpO order = Except.ok (results, prog)
      ∧ results.map (fun r => r.1) = order
      ∧ (results.map (fun r => r.1)).Perm (dispatched emails)
      ∧ (∀ r ∈ results,
          (r.2.1 = "Valid" ∨ r.2.1 = "Invalid" ∨ r.2.1 = "Blacklisted"
            ∨ r.2.1 = "Disposable" ∨ r.2.1 = "Greylisted")
          ∧ r.2.2 ≠ "")
      ∧ ∀ r ∈ results, r.1 ≠ "" := by
  obtain ⟨results, hrun, hmap, hall⟩ :=
    runBatchAux_spec emails.length smtpO bl synO dnsO order 0 hsyn
  refine ⟨results, _, hrun, hmap, by rw [hmap]; exact horder, hall, ?_⟩
  intro r hr
  have hmem : r.1 ∈ order := by
    rw [← hmap]
    exact List.mem_map_of_mem _ hr
  exact dispatched_mem_ne emails r.1 (horder.subset hmem)

/-- C1 witness: a batch with a padded address, one blank line and an
out-of-order completion. -/
theorem c1_witness :
    ∃ results prog,
      run_batch [" a@b.c ", "", "x"] [] (fun _ => SyntaxResult.emailNotValid "bad")
          (fun _ _ => DnsResult.nxdomain) (fun _ _ => SmtpResult.code 250)
          ["x", "a@b.c"]
        = Except.ok (results, prog)
      ∧ results.map (fun r => r.1) = ["x", "a@b.c"]
      ∧ (results.map (fun r => r.1)).Perm (dispatched [" a@b.c ", "", "x"])
      ∧ (∀ r ∈ results,
          (r.2.1 = "Valid" ∨ r.2.1 = "Invalid" ∨ r.2.1 = "Blacklisted"
            ∨ r.2.1 = "Disposable" ∨ r.2.1 = "Greylisted")
          ∧ r.2.2 ≠ "")
      ∧ ∀ r ∈ results, r.1 ≠ "" :=
  c1_batch_unique_dispositions [" a@b.c ", "", "x"] [] _ _ _ ["x", "a@b.c"]
    (by decide) (by intro e he m hc; simp at hc)

/-- C2 counterexample: with one non-blank and one blank input line, the only
invocation completes with reported progress 1/2, not 1.0, because line 123
divides by `len(emails)` — the raw line count including blanks — and not by
the number of dispatched (non-blank) addresses. -/
theorem c2_progress_counterexample :
    run_batch ["x", ""] [] (fun _ => SyntaxResult.emailNotValid "bad")
        (fun _ _ => DnsResult.nxdomain) (fun _ _ => SmtpResult.code 250) ["x"]
      = Except.ok ([("x", "Invalid", "Invalid syntax: bad")], [(1 : ℚ) / 2])
    ∧ ["x"].Perm (dispatched ["x", ""])
    ∧ (1 : ℚ) / 2 ≠ 1 := by
  refine ⟨?_, by decide, by norm_num⟩
  have h1 : Except.map Prod.fst
      (validate_email_address "x" [] disposable_providers
        (fun _ => SyntaxResult.emailNotValid "bad") (fun _ _ => DnsResult.nxdomain) 3)
      = Except.ok ("x", "Invalid", "Invalid syntax: bad") := by decide
  have h2 : processOne (fun _ _ => SmtpResult.code 250)
      ("x", "Invalid", "Invalid syntax: bad")
      = ("x", "Invalid", "Invalid syntax: bad") := by decide
  simp [run_batch, runBatchAux, h1, h2]

/-- C2 (amended): progress is advanced by exactly `1 / len(emails)` — one
over the raw input line count, blanks included — per completed invocation,
not by one over the number of non-blank addresses; it is monotonically
non-decreasing, and after the last of the D = (N minus blanks) invocations
its value is `D / len(emails)`, which equals 1.0 exactly when no input line
is blank. -/
theorem c2_progress_amended (emails bl : List String)
    (synO : String → SyntaxResult) (dnsO : String → Nat → DnsResult)
    (smtpO : String → String → SmtpResult) (order : List String)
    (horder : order.Perm (dispatched emails))
    (hsyn : ∀ e ∈ order, ∀ m, synO e ≠ SyntaxResult.otherExc m) :
    ∃ results prog,
      run_batch emails bl synO dnsO smtpO order = Except.ok (results, prog)
      ∧ prog = (List.range (dispatched emails).length).map
          (fun i => (((i + 1 : Nat) : ℚ) / (emails.length : ℚ)))
      ∧ List.Chain' (· ≤ ·) prog
      ∧ (order ≠ [] →
          prog.getLast?
            = some (((dispatched emails).length : ℚ) / (emails.length : ℚ)))
      ∧ (order ≠ [] →
          (prog.getLast? = some 1
            ↔ (dispatched emails).length = emails.length)) := by
  obtain ⟨results, hrun, hmap, hall⟩ :=
    runBatchAux_spec emails.length smtpO bl synO dnsO order 0 hsyn
  have hlen : order.length = (dispatched emails).length := horder.length_eq
  have hfun : (fun i => (((0 + i + 1 : Nat) : ℚ) / (emails.length : ℚ)))
      = fun i => (((i + 1 : Nat) : ℚ) / (emails.length : ℚ)) := by
    funext i
    norm_num
  have hP : (List.range order.length).map
        (fun i => (((0 + i + 1 : Nat) : ℚ) / (emails.length : ℚ)))
      = (List.range (dispatched emails).length).map
          (fun i => (((i + 1 : Nat) : ℚ) / (emails.length : ℚ))) := by
    rw [hlen, hfun]
  refine ⟨results, _, hrun, hP, ?_, ?_, ?_⟩
  · rw [hP]
    exact progress_chain (dispatched emails).length emails.length
  · intro hne
    have hDpos : 0 < (dispatched emails).length := by
      rw [← hlen]
      exact List.length_pos.mpr hne
    rw [hP, range_map_getLast _ _ (Nat.pos_iff_ne_zero.mp hDpos)]
    have hsucc : (dispatched emails).length - 1 + 1 = (dispatched emails).length :=
      Nat.succ_pred_eq_of_pos hDpos
    rw [hsucc]
  · intro hne
    have hDpos : 0 < (dispatched emails).length := by
      rw [← hlen]
      exact List.length_pos.mpr hne
    have hNpos : 0 < emails.length :=
      lt_of_lt_of_le hDpos (dispatched_length_le emails)
    rw [hP, range_map_getLast _ _ (Nat.pos_iff_ne_zero.mp hDpos)]
    have hsucc : (dispatched emails).length - 1 + 1 = (dispatched emails).length :=
      Nat.succ_pred_eq_of_pos hDpos
    rw [hsucc]
    simp only [Option.some.injEq]
    rw [div_eq_one_iff_eq (Nat.cast_ne_zero.mpr hNpos.ne' : (emails.length : ℚ) ≠ 0)]
    exact Nat.cast_inj

/-- C2 amended witness: one non-blank line out of two. -/
theorem c2_witness :
    ∃ results prog,
      run_batch ["x", ""] [] (fun _ => SyntaxResult.emailNotValid "bad")
          (fun _ _ => DnsResult.nxdomain) (fun _ _ => SmtpResult.code 250) ["x"]
        = Except.ok (results, prog)
      ∧ prog = (List.range (dispatched ["x", ""]).length).map
          (fun i => (((i + 1 : Nat) : ℚ) / ((["x", ""] : List String).length : ℚ)))
      ∧ List.Chain' (· ≤ ·) prog
      ∧ ((["x"] : List String) ≠ [] →
          prog.getLast?
            = some (((dispatched ["x", ""]).length : ℚ)
                / ((["x", ""] : List String).length : ℚ)))
      ∧ ((["x"] : List String) ≠ [] →
          (prog.getLast? = some 1
            ↔ (dispatched ["x", ""]).length = (["x", ""] : List String).length)) :=
  c2_progress_amended ["x", ""] [] _ _ _ ["x"]
    (by decide) (by intro e he m hc; simp at hc)

/-- C3: a syntactically valid address whose domain lies in both the operator
blacklist and the disposable-provider set is classified Blacklisted, not
Disposable: the blacklist test of line 24 runs before the disposable test of
line 28 and takes precedence. -/
theorem c3_blacklist_precedence (email : String) (bl dp : List String)
    (synO : String → SyntaxResult) (dnsO : String → Nat → DnsResult)
    (hok : synO email = SyntaxResult.ok)
    (hbl : pySplitLast "@" email ∈ bl)
    (hdp : pySplitLast "@" email ∈ dp) :
    validate_email_address email bl dp synO dnsO 3
      = Except.ok ((email, "Blacklisted", "Domain is blacklisted."), []) := by
  simp [validate_email_address, hok, hbl]

/-- C3 witness: `both.com` is in both sets and wins as Blacklisted. -/
theorem c3_witness :
    validate_email_address "a@both.com" ["both.com"] ["both.com"]
        (fun _ => SyntaxResult.ok) (fun _ _ => DnsResult.timeout) 3
      = Except.ok (("a@both.com", "Blacklisted", "Domain is blacklisted."), []) :=
  c3_blacklist_precedence "a@both.com" ["both.com"] ["both.com"] _ _ rfl
    (by decide) (by decide)

/-- C4: once the classifier is passed, a resolver that times out on every
attempt yields exactly 3 queries — the trace is query, sleep 1, query,
sleep 1, query, sleep 1, so consecutive queries are separated by a 1-second
pause — ending in a terminal Invalid with the retry-exhaustion message;
a definitive NXDOMAIN answer and any other resolver error are terminal
Invalid after a single query, with no retry. -/
theorem c4_dns_retry_policy (email : String) (bl dp : List String)
    (synO : String → SyntaxResult) (dnsO : String → Nat → DnsResult)
    (hok : synO email = SyntaxResult.ok)
    (hbl : pySplitLast "@" email ∉ bl)
    (hdp : pySplitLast "@" email ∉ dp) :
    ((∀ n, dnsO (pySplitLast "@" email) n = DnsResult.timeout) →
      validate_email_address email bl dp synO dnsO 3
        = Except.ok ((email, "Invalid", "DNS query failed after multiple retries."),
            [DnsEvent.query, DnsEvent.sleep 1, DnsEvent.query, DnsEvent.sleep 1,
              DnsEvent.query, DnsEvent.sleep 1])
      ∧ [DnsEvent.query, DnsEvent.sleep 1, DnsEvent.query, DnsEvent.sleep 1,
          DnsEvent.query, DnsEvent.sleep 1].count DnsEvent.query = 3)
    ∧ (dnsO (pySplitLast "@" email) 0 = DnsResult.nxdomain →
        validate_email_address email bl dp synO dnsO 3
          = Except.ok ((email, "Invalid", "Domain does not exist."), [DnsEvent.query]))
    ∧ (∀ msg, dnsO (pySplitLast "@" email) 0 = DnsResult.error msg →
        validate_email_address email bl dp synO dnsO 3
          = Except.ok ((email, "Invalid", "DNS error: " ++ msg), [DnsEvent.query])) := by
  refine ⟨?_, ?_, ?_⟩
  · intro ht
    refine ⟨?_, by decide⟩
    rw [validate_dns_branch email bl dp synO dnsO hok hbl hdp]
    have h3 : dnsLoop (dnsO (pySplitLast "@" email)) 3
        = (("Invalid", "DNS query failed after multiple retries."),
            List.flatten (List.replicate 3 [DnsEvent.query, DnsEvent.sleep 1])) :=
      dnsLoopAux_timeout _ ht 3 0
    rw [h3]
    rfl
  · intro hnx
    rw [validate_dns_branch email bl dp synO dnsO hok hbl hdp]
    have h3 : dnsLoop (dnsO (pySplitLast "@" email)) 3
        = (("Invalid", "Domain does not exist."), [DnsEvent.query]) :=
      dnsLoopAux_nxdomain _ 0 2 hnx
    rw [h3]
  · intro msg herr
    rw [validate_dns_branch email bl dp synO dnsO hok hbl hdp]
    have h3 : dnsLoop (dnsO (pySplitLast "@" email)) 3
        = (("Invalid", "DNS error: " ++ msg), [DnsEvent.query]) :=
      dnsLoopAux_error _ 0 2 msg herr
    rw [h3]

/-- C4 witness: an always-timing-out resolver on a concrete address. -/
theorem c4_witness :
    validate_email_address "u@slow.example" [] []
        (fun _ => SyntaxResult.ok) (fun _ _ => DnsResult.timeout) 3
      = Except.ok (("u@slow.example", "Invalid",
          "DNS query failed after multiple retries."),
          [DnsEvent.query, DnsEvent.sleep 1, DnsEvent.query, DnsEvent.sleep 1,
            DnsEvent.query, DnsEvent.sleep 1])
    ∧ [DnsEvent.query, DnsEvent.sleep 1, DnsEvent.query, DnsEvent.sleep 1,
        DnsEvent.query, DnsEvent.sleep 1].count DnsEvent.query = 3 :=
  (c4_dns_retry_policy "u@slow.example" [] [] _ _ rfl (by decide) (by decide)).1
    (fun _ => rfl)

/-- C5: on a successful resolution an empty record set yields terminal
Invalid "No MX records found for domain."; a non-empty set always yields a
pick, and the picked record is a member of minimal preference that occurs
before every strictly-smaller-preference-free prefix — i.e. it is the first
record of minimal preference in resolver-returned order — and the outcome is
provisional Valid naming that host with trailing root-label dots
stripped. -/
theorem c5_mx_selection (email : String) (bl dp : List String)
    (synO : String → SyntaxResult) (dnsO : String → Nat → DnsResult)
    (rs : List MXRecord)
    (hok : synO email = SyntaxResult.ok)
    (hbl : pySplitLast "@" email ∉ bl)
    (hdp : pySplitLast "@" email ∉ dp)
    (hdns : dnsO (pySplitLast "@" email) 0 = DnsResult.records rs) :
    (rs = [] →
      validate_email_address email bl dp synO dnsO 3
        = Except.ok ((email, "Invalid", "No MX records found for domain."),
            [DnsEvent.query]))
    ∧ (rs ≠ [] → ∃ m, firstByPreference rs = some m)
    ∧ (∀ m, firstByPreference rs = some m →
        m ∈ rs ∧ (∀ r ∈ rs, m.preference ≤ r.preference)
        ∧ (∃ pre post, rs = pre ++ m :: post
            ∧ ∀ r ∈ pre, m.preference < r.preference)
        ∧ validate_email_address email bl dp synO dnsO 3
          = Except.ok ((email, "Valid",
              "MX records found, prioritized at " ++ pyRstripDots m.exchange),
              [DnsEvent.query])) := by
  refine ⟨?_, fun hne => firstByPreference_isSome rs hne, ?_⟩
  · intro hnil
    subst hnil
    rw [validate_dns_branch email bl dp synO dnsO hok hbl hdp]
    have h3 : dnsLoop (dnsO (pySplitLast "@" email)) 3
        = (("Invalid", "No MX records found for domain."), [DnsEvent.query]) :=
      dnsLoopAux_records_none _ 0 2 [] hdns rfl
    rw [h3]
  · intro m hm
    obtain ⟨hmem, hmin, hfirst⟩ := firstByPreference_spec rs m hm
    refine ⟨hmem, hmin, hfirst, ?_⟩
    rw [validate_dns_branch email bl dp synO dnsO hok hbl hdp]
    have h3 : dnsLoop (dnsO (pySplitLast "@" email)) 3
        = (("Valid", "MX records found, prioritized at " ++ pyRstripDots m.exchange),
            [DnsEvent.query]) :=
      dnsLoopAux_records_some _ 0 2 rs m hdns hm
    rw [h3]

/-- C5 witness: preference 5 ties; the first such record in resolver order
wins and its trailing dot is stripped. -/
theorem c5_witness :
    validate_email_address "u@d.com" [] []
        (fun _ => SyntaxResult.ok)
        (fun _ _ => DnsResult.records
          [⟨10, "late.example."⟩, ⟨5, "pick.example."⟩, ⟨5, "tie.example."⟩]) 3
      = Except.ok (("u@d.com", "Valid",
          "MX records found, prioritized at "
            ++ pyRstripDots ("pick.example." : String)),
          [DnsEvent.query]) :=
  ((c5_mx_selection "u@d.com" [] [] _ _
      [⟨10, "late.example."⟩, ⟨5, "pick.example."⟩, ⟨5, "tie.example."⟩]
      rfl (by decide) (by decide) rfl).2.2
    ⟨5, "pick.example."⟩ (by decide)).2.2.2

/-- C6: `smtp_check` maps the recipient-verification outcome of its single
probe — no retry happens at this layer, the function consumes exactly one
probe result — as: 250 to Valid "Email exists and is reachable.", 550 to
Invalid "Mailbox does not exist.", 451 to Greylisted "Temporary error, try
again later.", any other code to Invalid naming the numeric code, a
connection failure to Invalid "SMTP connection failed.", and any other
exception to Invalid naming the underlying error. -/
theorem c6_smtp_mapping :
    smtp_check (SmtpResult.code 250) = ("Valid", "Email exists and is reachable.")
    ∧ smtp_check (SmtpResult.code 550) = ("Invalid", "Mailbox does not exist.")
    ∧ smtp_check (SmtpResult.code 451)
      = ("Greylisted", "Temporary error, try again later.")
    ∧ (∀ n, n ≠ 250 → n ≠ 550 → n ≠ 451 →
        smtp_check (SmtpResult.code n)
          = ("Invalid", "SMTP response code " ++ toString n ++ "."))
    ∧ smtp_check SmtpResult.connectError = ("Invalid", "SMTP connection failed.")
    ∧ (∀ msg, smtp_check (SmtpResult.otherExc msg)
        = ("Invalid", "SMTP error: " ++ msg)) := by
  refine ⟨rfl, rfl, rfl, ?_, rfl, fun msg => rfl⟩
  intro n h1 h2 h3
  simp [smtp_check, h1, h2, h3]

/-- C6 witness: an unmapped response code surfaces as Invalid with the
numeric code in the message. -/
theorem c6_witness :
    smtp_check (SmtpResult.code 472)
      = ("Invalid", "SMTP response code " ++ toString 472 ++ ".") :=
  c6_smtp_mapping.2.2.2.1 472 (by decide) (by decide) (by decide)

/-- C7: an address failing syntax validation yields terminal Invalid with a
message carrying the specific defect; the result is the same fixed value for
every blacklist, disposable set and DNS oracle (so no blacklist lookup or
DNS query influences it — the DNS trace is empty), and the orchestrator
leaves the triple unchanged for every SMTP oracle (no probe). -/
theorem c7_syntax_short_circuit (email msg : String) (bl dp : List String)
    (synO : String → SyntaxResult) (dnsO : String → Nat → DnsResult)
    (smtpO : String → String → SmtpResult)
    (h : synO email = SyntaxResult.emailNotValid msg) :
    validate_email_address email bl dp synO dnsO 3
      = Except.ok ((email, "Invalid", "Invalid syntax: " ++ msg), [])
    ∧ containsSeq msg.data ("Invalid syntax: " ++ msg).data = true
    ∧ processOne smtpO (email, "Invalid", "Invalid syntax: " ++ msg)
      = (email, "Invalid", "Invalid syntax: " ++ msg) := by
  refine ⟨by simp [validate_email_address, h], ?_, ?_⟩
  · rw [String.data_append]
    exact containsSeq_suffix _ _
  · simp [processOne]

/-- C7 witness: an address with no at-sign. -/
theorem c7_witness :
    validate_email_address "not-an-email" ["d.com"] ["d.com"]
        (fun _ => SyntaxResult.emailNotValid "no at-sign in address")
        (fun _ _ => DnsResult.timeout) 3
      = Except.ok (("not-an-email", "Invalid",
          "Invalid syntax: " ++ "no at-sign in address"), [])
    ∧ containsSeq ("no at-sign in address" : String).data
        (("Invalid syntax: " ++ "no at-sign in address" : String)).data = true
    ∧ processOne (fun _ _ => SmtpResult.code 250)
        ("not-an-email", "Invalid", "Invalid syntax: " ++ "no at-sign in address")
      = ("not-an-email", "Invalid", "Invalid syntax: " ++ "no at-sign in address") :=
  c7_syntax_short_circuit "not-an-email" "no at-sign in address"
    ["d.com"] ["d.com"] _ _ _ rfl

/-- C8 — behavior of the code at the failing input: an unexpected exception
raised inside one invocation re-raises from `future.result()` (the
`as_completed` loop of lines 110-123 has no try/except) and aborts the whole
batch: `run_batch` produces no Disposition list at all, in particular no
Invalid Outcome for the failing address, and the other address's result is
lost too.  The completion order used is a permutation of the dispatched
addresses. -/
theorem c8_exception_aborts_batch :
    run_batch ["boom@example.com", "ok@example.com"] []
        (fun e => if e = "boom@example.com"
            then SyntaxResult.otherExc "unexpected failure"
            else SyntaxResult.ok)
        (fun _ _ => DnsResult.nxdomain) (fun _ _ => SmtpResult.code 250)
        ["boom@example.com", "ok@example.com"]
      = Except.error "unexpected failure"
    ∧ ["boom@example.com", "ok@example.com"].Perm
        (dispatched ["boom@example.com", "ok@example.com"]) := by
  constructor
  · have h1 : Except.map Prod.fst
        (validate_email_address "boom@example.com" [] disposable_providers
          (fun e => if e = "boom@example.com"
              then SyntaxResult.otherExc "unexpected failure"
              else SyntaxResult.ok)
          (fun _ _ => DnsResult.nxdomain) 3)
        = Except.error "unexpected failure" := by decide
    simp [run_batch, runBatchAux, h1]
  · decide

/-- C9: when resolution succeeds but the picked exchange strips to the empty
string, the pipeline's Disposition is the provisional DNS Outcome itself —
status Valid with the bare MX message — and the orchestrator extracts an
empty host from that message and skips the SMTP probe, leaving the triple
unchanged for every SMTP oracle. -/
theorem c9_unusable_host_skips_smtp (email : String) (bl dp : List String)
    (synO : String → SyntaxResult) (dnsO : String → Nat → DnsResult)
    (smtpO : String → String → SmtpResult) (rs : List MXRecord) (m : MXRecord)
    (hok : synO email = SyntaxResult.ok)
    (hbl : pySplitLast "@" email ∉ bl)
    (hdp : pySplitLast "@" email ∉ dp)
    (hdns : dnsO (pySplitLast "@" email) 0 = DnsResult.records rs)
    (hm : firstByPreference rs = some m)
    (hempty : pyRstripDots m.exchange = "") :
    validate_email_address email bl dp synO dnsO 3
      = Except.ok ((email, "Valid", "MX records found, prioritized at "),
          [DnsEvent.query])
    ∧ processOne smtpO (email, "Valid", "MX records found, prioritized at ")
      = (email, "Valid", "MX records found, prioritized at ") := by
  constructor
  · rw [validate_dns_branch email bl dp synO dnsO hok hbl hdp]
    have h3 : dnsLoop (dnsO (pySplitLast "@" email)) 3
        = (("Valid", "MX records found, prioritized at " ++ pyRstripDots m.exchange),
            [DnsEvent.query]) :=
      dnsLoopAux_records_some _ 0 2 rs m hdns hm
    rw [h3, hempty]
    have happ : ("MX records found, prioritized at " ++ "" : String)
        = "MX records found, prioritized at " := by decide
    rw [happ]
  · have hcontains : containsSeq ("MX records found" : String).data
        ("MX records found, prioritized at " : String).data = true := by decide
    have hsplit : pySplitLast ", prioritized at " "MX records found, prioritized at "
        = "" := by decide
    simp [processOne, hcontains, hsplit]

/-- C9 witness: a single MX record whose exchange is all dots. -/
theorem c9_witness :
    validate_email_address "u@dots.example" [] []
        (fun _ => SyntaxResult.ok) (fun _ _ => DnsResult.records [⟨5, "..."⟩]) 3
      = Except.ok (("u@dots.example", "Valid", "MX records found, prioritized at "),
          [DnsEvent.query])
    ∧ processOne (fun _ _ => SmtpResult.code 250)
        ("u@dots.example", "Valid", "MX records found, prioritized at ")
      = ("u@dots.example", "Valid", "MX records found, prioritized at ") :=
  c9_unusable_host_skips_smtp "u@dots.example" [] [] _ _ _ [⟨5, "..."⟩] ⟨5, "..."⟩
    rfl (by decide) (by decide) rfl (by decide) (by decide)

/-- C10: the domain used by the classifier is exactly the substring after the
last at-sign (the input decomposes as prefix, at-sign, domain, with no
at-sign in the domain); list membership is plain element equality; a
syntactically valid address whose domain is in neither list always proceeds
to DNS; and concretely `user@mail.tempmail.com` — whose domain is a proper
subdomain of the listed `tempmail.com` — is caught by neither the blacklist
`["tempmail.com"]` nor the built-in disposable set and reaches DNS
resolution. -/
theorem c10_domain_after_last_at :
    (∀ s : String, '@' ∈ s.data →
      ∃ l, s.data = l ++ '@' :: (pySplitLast "@" s).data
        ∧ '@' ∉ (pySplitLast "@" s).data)
    ∧ (∀ (d : String) (bl : List String), d ∈ bl ↔ ∃ x ∈ bl, x = d)
    ∧ (∀ (email : String) (bl dp : List String)
        (synO : String → SyntaxResult) (dnsO : String → Nat → DnsResult),
        synO email = SyntaxResult.ok →
        pySplitLast "@" email ∉ bl → pySplitLast "@" email ∉ dp →
        validate_email_address email bl dp synO dnsO 3
          = Except.ok ((email, (dnsLoop (dnsO (pySplitLast "@" email)) 3).1.1,
              (dnsLoop (dnsO (pySplitLast "@" email)) 3).1.2),
              (dnsLoop (dnsO (pySplitLast "@" email)) 3).2))
    ∧ pySplitLast "@" "user@mail.tempmail.com" = "mail.tempmail.com"
    ∧ "tempmail.com" ∈ disposable_providers
    ∧ "mail.tempmail.com" ∉ disposable_providers
    ∧ validate_email_address "user@mail.tempmail.com" ["tempmail.com"]
        disposable_providers (fun _ => SyntaxResult.ok)
        (fun _ _ => DnsResult.nxdomain) 3
      = Except.ok (("user@mail.tempmail.com", "Invalid", "Domain does not exist."),
          [DnsEvent.query]) := by
  refine ⟨?_, ?_, ?_, by decide, by decide, by decide, by decide⟩
  · intro s hs
    cases hr : afterLastChar '@' s.data with
    | none => exact absurd hs ((afterLastChar_eq_none '@' s.data).mp hr)
    | some t =>
      have hq : ("@" : String).data = ['@'] := by decide
      have h1 : pySLAux ("@" : String).data s.data.length s.data = some t := by
        rw [hq, pySLAux_single '@' s.data.length s.data (le_refl _), hr]
      have hsl : pySplitLast "@" s = String.mk t := by
        unfold pySplitLast
        rw [h1]
      obtain ⟨l, hl, hnt⟩ := afterLastChar_spec '@' s.data t hr
      rw [hsl]
      exact ⟨l, by simpa using hl, by simpa using hnt⟩
  · intro d bl
    constructor
    · intro hmem
      exact ⟨d, hmem, rfl⟩
    · rintro ⟨x, hx, rfl⟩
      exact hx
  · intro email bl dp synO dnsO hok hbl hdp
    exact validate_dns_branch email bl dp synO dnsO hok hbl hdp

/-- C10 witness: the concrete decomposition of `user@mail.tempmail.com`. -/
theorem c10_witness :
    ∃ l, ("user@mail.tempmail.com" : String).data
        = l ++ '@' :: (pySplitLast "@" "user@mail.tempmail.com").data
      ∧ '@' ∉ (pySplitLast "@" "user@mail.tempmail.com").data :=
  c10_domain_after_last_at.1 "user@mail.tempmail.com" (by decide)
